import Mathlib

/-!
Shallow embedding of `src/forecaster.py` (class `Forecaster`).

Hours are modelled as integers (`ℤ`), metric values and times as exact
rationals (`ℚ`).  Fallible operations (`IndexError` in Python / out-of-range
indexing in numpy) are modelled with `Option`:

* `_either_side(centre_point, steps)` computes
  `right_idx = np.where(steps > centre_point)[0][0]`, `left_idx = right_idx - 1`,
  and returns `(steps[left_idx], steps[right_idx])`.  `firstGtIdx` models
  `np.where(steps > centre_point)[0][0]` (the index of the first element
  strictly greater than the centre point, `none` when there is none, which in
  Python raises `IndexError`), and `npGet` models numpy integer indexing with
  its negative-index wrap-around.
* `_weighted_avg(in_set, out_set)` reads `in_set[0]`, `in_set[1]`,
  `out_set[0]`, `out_set[1]` and combines them with the fixed formula; a
  missing element (Python `IndexError`) yields `none`.
* `_to_bearing(angle_value)` takes `np.abs` of the angle and runs an
  `if/elif` chain with no final `else`, so angles matched by no branch yield
  Python `None`, modelled as `none`.
* `build_results` iterates over the day's timesteps, appending each metric of
  a timestep to the `in` lists when its hour is in `in_hours`, `elif` to the
  `out` lists when its hour is in `out_hours`, then calls `_weighted_avg`
  once per metric.
-/

/-- Model of `np.where(steps > centre_point)[0][0]`: the index of the first
element of `steps` strictly greater than `centre_point`, or `none` when no
element is (in which case Python raises `IndexError`). -/
def firstGtIdx (centre_point : ℤ) : List ℤ → Option ℕ
  | [] => none
  | h :: t => if centre_point < h then some 0 else (firstGtIdx centre_point t).map (· + 1)

/-- Model of numpy integer array indexing `xs[i]`: a negative index `i` with
`-len ≤ i` wraps around to `len + i`; an index out of range raises
`IndexError`, modelled as `none`. -/
def npGet (xs : List ℤ) (i : ℤ) : Option ℤ :=
  if 0 ≤ i then xs.get? i.toNat
  else if (xs.length : ℤ) + i < 0 then none
  else xs.get? ((xs.length : ℤ) + i).toNat

/-- Model of `Forecaster._either_side`:
`right_idx = np.where(steps > centre_point)[0][0]`,
`left_idx = right_idx - 1`, result `(steps[left_idx], steps[right_idx])`. -/
def either_side (centre_point : ℤ) (steps : List ℤ) : Option (ℤ × ℤ) :=
  match firstGtIdx centre_point steps with
  | none => none
  | some right_idx =>
    match npGet steps ((right_idx : ℤ) - 1), npGet steps (right_idx : ℤ) with
    | some l, some r => some (l, r)
    | _, _ => none

/-- Model of `Forecaster._weighted_avg`.  The two windows' values are read by
index (`in_set[0]`, `in_set[1]`, `out_set[0]`, `out_set[1]`); a missing
element is a Python `IndexError`, modelled as `none`. -/
def weighted_avg (in_time out_time : ℚ) (in_hours out_hours : ℚ × ℚ)
    (in_set out_set : List ℚ) : Option (ℚ × ℚ) :=
  match in_set.get? 0, in_set.get? 1, out_set.get? 0, out_set.get? 1 with
  | some i0, some i1, some o0, some o1 =>
      some ((((in_time - in_hours.1) * i0) + ((in_hours.2 - in_time) * i1)) /
              (in_hours.2 - in_hours.1),
            (((out_time - out_hours.1) * o0) + ((out_hours.2 - out_time) * o1)) /
              (out_hours.2 - out_hours.1))
  | _, _, _, _ => none

/-- Model of `Forecaster._to_bearing`: `orientation = np.abs(angle_value)`
followed by the source's `if/elif` chain; fall-through returns `None`. -/
def to_bearing (angle_value : ℚ) : Option String :=
  if |angle_value| < 22.5 then some "N"
  else if 337.5 < |angle_value| ∧ |angle_value| < 360 then some "N"
  else if 22.6 < |angle_value| ∧ |angle_value| < 67.5 then some "NNE"
  else if 67.6 < |angle_value| ∧ |angle_value| < 112.5 then some "E"
  else if 112.6 < |angle_value| ∧ |angle_value| < 157.5 then some "SSE"
  else if 157.6 < |angle_value| ∧ |angle_value| < 202.5 then some "S"
  else if 202.6 < |angle_value| ∧ |angle_value| < 247.5 then some "SSW"
  else if 247.6 < |angle_value| ∧ |angle_value| < 292.5 then some "W"
  else if 292.6 < |angle_value| ∧ |angle_value| < 337.5 then some "NNW"
  else none

/-- One forecast timestep: an hour of day and the four scalar measurements
read by `Forecaster` (`time.date.hour`, `.precipitation.value`,
`.temperature.value`, `.wind_speed.value`, `.wind_gust.value`). -/
structure Timestep where
  hour : ℤ
  precipitation : ℚ
  temperature : ℚ
  wind_speed : ℚ
  wind_gust : ℚ
deriving DecidableEq

/-- Model of `Forecaster._rain_prob`. -/
def rain_prob (time_point : Timestep) : ℚ := time_point.precipitation

/-- Model of `Forecaster._temps`. -/
def temps (time_point : Timestep) : ℚ := time_point.temperature

/-- Model of `Forecaster._wind_speed`. -/
def wind_speed (time_point : Timestep) : ℚ := time_point.wind_speed

/-- Model of `Forecaster._gust_speed`. -/
def gust_speed (time_point : Timestep) : ℚ := time_point.wind_gust

/-- Membership test `time.date.hour in self.in_hours` (a 2-tuple). -/
def inStep (in_hours : ℤ × ℤ) (s : Timestep) : Bool :=
  s.hour == in_hours.1 || s.hour == in_hours.2

/-- The `elif time.date.hour in self.out_hours` branch of `build_results`:
reached only when the `in` test failed. -/
def outStep (in_hours out_hours : ℤ × ℤ) (s : Timestep) : Bool :=
  !(inStep in_hours s) && (s.hour == out_hours.1 || s.hour == out_hours.2)

/-- The 8-key result mapping filled in by `Forecaster.build_results`. -/
structure ResultSet where
  in_rain : ℚ
  out_rain : ℚ
  in_temp : ℚ
  out_temp : ℚ
  in_wind : ℚ
  out_wind : ℚ
  in_gust : ℚ
  out_gust : ℚ
deriving DecidableEq

/-- Model of `Forecaster.build_results`: a single pass over the timesteps
buckets each metric value into the `in` lists (hour in `in_hours`) or `elif`
the `out` lists (hour in `out_hours`), in iteration order; then
`_weighted_avg` is called once per metric.  Any `IndexError` inside
`_weighted_avg` aborts the run with no result set, modelled as `none`. -/
def build_results (in_time out_time : ℚ) (in_hours out_hours : ℤ × ℤ)
    (steps : List Timestep) : Option ResultSet :=
  match
    weighted_avg in_time out_time ((in_hours.1 : ℚ), (in_hours.2 : ℚ))
      ((out_hours.1 : ℚ), (out_hours.2 : ℚ))
      ((steps.filter (inStep in_hours)).map rain_prob)
      ((steps.filter (outStep in_hours out_hours)).map rain_prob),
    weighted_avg in_time out_time ((in_hours.1 : ℚ), (in_hours.2 : ℚ))
      ((out_hours.1 : ℚ), (out_hours.2 : ℚ))
      ((steps.filter (inStep in_hours)).map temps)
      ((steps.filter (outStep in_hours out_hours)).map temps),
    weighted_avg in_time out_time ((in_hours.1 : ℚ), (in_hours.2 : ℚ))
      ((out_hours.1 : ℚ), (out_hours.2 : ℚ))
      ((steps.filter (inStep in_hours)).map wind_speed)
      ((steps.filter (outStep in_hours out_hours)).map wind_speed),
    weighted_avg in_time out_time ((in_hours.1 : ℚ), (in_hours.2 : ℚ))
      ((out_hours.1 : ℚ), (out_hours.2 : ℚ))
      ((steps.filter (inStep in_hours)).map gust_speed)
      ((steps.filter (outStep in_hours out_hours)).map gust_speed) with
  | some (ir, outr), some (itp, otp), some (iw, ow), some (ig, og) =>
      some ⟨ir, outr, itp, otp, iw, ow, ig, og⟩
  | _, _, _, _ => none

/-! ### Helper lemmas about `firstGtIdx`, `npGet` and `either_side` -/

theorem firstGtIdx_nil (c : ℤ) : firstGtIdx c [] = none := rfl

theorem firstGtIdx_cons (c hd : ℤ) (tl : List ℤ) :
    firstGtIdx c (hd :: tl) =
      if c < hd then some 0 else (firstGtIdx c tl).map (· + 1) := rfl

theorem firstGtIdx_eq_none_iff (c : ℤ) (l : List ℤ) :
    firstGtIdx c l = none ↔ ∀ x ∈ l, x ≤ c := by
  induction l with
  | nil => simp [firstGtIdx_nil]
  | cons hd tl ih =>
    rw [firstGtIdx_cons]
    by_cases hc : c < hd
    · rw [if_pos hc]
      constructor
      · intro hco
        exact (Option.some_ne_none 0 hco).elim
      · intro hall
        exact absurd (hall hd (List.mem_cons_self hd tl)) (not_le.mpr hc)
    · rw [if_neg hc, Option.map_eq_none', ih]
      constructor
      · intro hall x hx
        rcases List.mem_cons.mp hx with rfl | hx
        · exact not_lt.mp hc
        · exact hall x hx
      · intro hall x hx
        exact hall x (List.mem_cons_of_mem hd hx)

theorem firstGtIdx_get (c : ℤ) (l : List ℤ) :
    ∀ i : ℕ, firstGtIdx c l = some i → ∃ x, l.get? i = some x ∧ c < x := by
  induction l with
  | nil =>
    intro i h
    simp [firstGtIdx_nil] at h
  | cons hd tl ih =>
    intro i h
    rw [firstGtIdx_cons] at h
    by_cases hc : c < hd
    · rw [if_pos hc] at h
      obtain rfl : (0 : ℕ) = i := Option.some.inj h
      exact ⟨hd, rfl, hc⟩
    · rw [if_neg hc, Option.map_eq_some'] at h
      obtain ⟨j, hj, hji⟩ := h
      obtain ⟨x, hx, hcx⟩ := ih j hj
      subst hji
      exact ⟨x, hx, hcx⟩

theorem firstGtIdx_before (c : ℤ) (l : List ℤ) :
    ∀ i : ℕ, firstGtIdx c l = some i →
      ∀ j : ℕ, j < i → ∀ x, l.get? j = some x → x ≤ c := by
  induction l with
  | nil =>
    intro i h
    simp [firstGtIdx_nil] at h
  | cons hd tl ih =>
    intro i h j hj x hx
    rw [firstGtIdx_cons] at h
    by_cases hc : c < hd
    · rw [if_pos hc] at h
      obtain rfl : (0 : ℕ) = i := Option.some.inj h
      exact absurd hj (Nat.not_lt_zero j)
    · rw [if_neg hc, Option.map_eq_some'] at h
      obtain ⟨k, hk, hki⟩ := h
      subst hki
      cases j with
      | zero =>
        obtain rfl : hd = x := Option.some.inj hx
        exact not_lt.mp hc
      | succ m =>
        exact ih k hk m (Nat.lt_of_succ_lt_succ hj) x hx

theorem npGet_coe (xs : List ℤ) (n : ℕ) : npGet xs (n : ℤ) = xs.get? n := by
  rw [npGet, if_pos (Int.natCast_nonneg n), Int.toNat_natCast]

theorem npGet_neg_one (xs : List ℤ) (hne : xs ≠ []) :
    npGet xs (-1) = some (xs.getLast hne) := by
  have hlen : 1 ≤ xs.length := List.length_pos.mpr hne
  rw [npGet, if_neg (by norm_num : ¬ (0 : ℤ) ≤ -1),
    if_neg (by omega : ¬ ((xs.length : ℤ) + -1 < 0))]
  have htn : ((xs.length : ℤ) + -1).toNat = xs.length - 1 := by omega
  rw [htn, List.get?_eq_get (by omega : xs.length - 1 < xs.length)]
  rw [List.getLast_eq_get]

theorem sorted_get?_lt (H : List ℤ) (hs : List.Sorted (· < ·) H) :
    ∀ (i j : ℕ) (x y : ℤ), i < j → H.get? i = some x → H.get? j = some y → x < y := by
  intro i j x y hij hx hy
  obtain ⟨hi, hxg⟩ := List.get?_eq_some.mp hx
  obtain ⟨hj, hyg⟩ := List.get?_eq_some.mp hy
  have hlt := List.pairwise_iff_get.mp hs ⟨i, hi⟩ ⟨j, hj⟩ (Fin.mk_lt_mk.mpr hij)
  rw [hxg, hyg] at hlt
  exact hlt

theorem sorted_le_getLast (H : List ℤ) (hs : List.Sorted (· < ·) H) (hne : H ≠ []) :
    ∀ x ∈ H, x ≤ H.getLast hne := by
  intro x hx
  have hlen : 1 ≤ H.length := List.length_pos.mpr hne
  obtain ⟨k, hk⟩ := List.mem_iff_get.mp hx
  have hlast : H.get? (H.length - 1) = some (H.getLast hne) := by
    rw [List.get?_eq_get (by omega : H.length - 1 < H.length), List.getLast_eq_get]
  have hkx : H.get? k.1 = some x := by
    rw [List.get?_eq_get k.2, hk]
  rcases Nat.lt_or_ge k.1 (H.length - 1) with hlt | hge
  · exact le_of_lt (sorted_get?_lt H hs k.1 (H.length - 1) x (H.getLast hne) hlt hkx hlast)
  · have hk1 : k.1 = H.length - 1 := by
      have := k.2
      omega
    rw [hk1] at hkx
    rw [hlast] at hkx
    exact le_of_eq (Option.some.inj hkx).symm

theorem either_side_spec (H : List ℤ) (t : ℤ) (hne : H ≠ [])
    (hmin : H.head hne ≤ t) (hmax : t < H.getLast hne) :
    ∃ (i : ℕ) (l r : ℤ), firstGtIdx t H = some i ∧ 1 ≤ i ∧
      H.get? (i - 1) = some l ∧ H.get? i = some r ∧
      either_side t H = some (l, r) := by
  cases hfi : firstGtIdx t H with
  | none =>
    exfalso
    have hall := (firstGtIdx_eq_none_iff t H).mp hfi
    exact absurd (hall (H.getLast hne) (List.getLast_mem hne)) (not_le.mpr hmax)
  | some i =>
    obtain ⟨r, hr, htr⟩ := firstGtIdx_get t H i hfi
    have hi1 : 1 ≤ i := by
      rcases Nat.eq_zero_or_pos i with rfl | h
      · exfalso
        have h0 : H.get? 0 = some (H.head hne) := by
          rw [List.get?_zero, List.head?_eq_head]
        rw [h0] at hr
        obtain rfl : H.head hne = r := Option.some.inj hr
        exact absurd htr (not_lt.mpr hmin)
      · exact h
    have hilen : i < H.length := (List.get?_eq_some.mp hr).1
    obtain ⟨l, hl⟩ : ∃ l, H.get? (i - 1) = some l :=
      ⟨_, List.get?_eq_get (by omega : i - 1 < H.length)⟩
    refine ⟨i, l, r, rfl, hi1, hl, hr, ?_⟩
    have hcast : (i : ℤ) - 1 = ((i - 1 : ℕ) : ℤ) := by omega
    simp only [either_side, hfi, hcast, npGet_coe, hl, hr]

/-! ### Claim theorems about `_either_side` -/

/-- C1: for every strictly ascending hour list `H` and integer target `t`
with `min H ≤ t < max H`, `_either_side t H` returns the unique adjacent pair
`(l, r)` of `H` with `l ≤ t < r`, where `r` is the first available hour
strictly greater than `t` and `l` its immediate predecessor. -/
theorem either_side_bracket_correct (H : List ℤ) (t : ℤ)
    (hs : List.Sorted (· < ·) H) (hne : H ≠ [])
    (hmin : H.head hne ≤ t) (hmax : t < H.getLast hne) :
    ∃ l r : ℤ, either_side t H = some (l, r) ∧
      (∃ i : ℕ, H.get? i = some l ∧ H.get? (i + 1) = some r) ∧
      l ≤ t ∧ t < r ∧
      (∀ x ∈ H, t < x → r ≤ x) ∧
      (∀ (j : ℕ) (l2 r2 : ℤ), H.get? j = some l2 → H.get? (j + 1) = some r2 →
        l2 ≤ t → t < r2 → l2 = l ∧ r2 = r) := by
  obtain ⟨i, l, r, hfi, hi1, hl, hr, heq⟩ := either_side_spec H t hne hmin hmax
  have hadj : H.get? ((i - 1) + 1) = some r := by
    rw [Nat.sub_add_cancel hi1]
    exact hr
  have hlt : l ≤ t := firstGtIdx_before t H i hfi (i - 1) (by omega) l hl
  have htr : t < r := by
    obtain ⟨x, hx, hcx⟩ := firstGtIdx_get t H i hfi
    rw [hr] at hx
    obtain rfl : r = x := Option.some.inj hx
    exact hcx
  refine ⟨l, r, heq, ⟨i - 1, hl, hadj⟩, hlt, htr, ?_, ?_⟩
  · intro x hx htx
    obtain ⟨k, hk⟩ := List.mem_iff_get.mp hx
    have hkx : H.get? k.1 = some x := by
      rw [List.get?_eq_get k.2, hk]
    rcases Nat.lt_or_ge k.1 i with hki | hki
    · exact absurd htx (not_lt.mpr (firstGtIdx_before t H i hfi k.1 hki x hkx))
    · rcases Nat.eq_or_lt_of_le hki with heqk | hltk
      · rw [← heqk] at hkx
        rw [hr] at hkx
        exact le_of_eq (Option.some.inj hkx)
      · exact le_of_lt (sorted_get?_lt H hs i k.1 r x hltk hr hkx)
  · intro j l2 r2 hj hj1 hl2t htr2
    have hji : j + 1 = i := by
      by_contra hnee
      rcases Nat.lt_or_ge (j + 1) i with hlt2 | hge
      · exact absurd htr2 (not_lt.mpr (firstGtIdx_before t H i hfi (j + 1) hlt2 r2 hj1))
      · have hij : i ≤ j := by omega
        rcases Nat.eq_or_lt_of_le hij with heqj | hltj
        · rw [← heqj] at hj
          rw [hr] at hj
          have hrl2 : r = l2 := Option.some.inj hj
          exact absurd hl2t (not_le.mpr (hrl2 ▸ htr))
        · exact absurd hl2t
            (not_le.mpr (lt_trans htr (sorted_get?_lt H hs i j r l2 hltj hr hj)))
    constructor
    · have hj2 : j = i - 1 := by omega
      rw [hj2, hl] at hj
      exact (Option.some.inj hj).symm
    · rw [hji, hr] at hj1
      exact (Option.some.inj hj1).symm

/-- Witness for C1 at H = [0,3,6,9,12,15,18,21], t = 7 (the spec's example,
where the bracket is (6, 9)). -/
theorem either_side_bracket_correct_witness :
    ∃ l r : ℤ, either_side 7 [0, 3, 6, 9, 12, 15, 18, 21] = some (l, r) ∧
      (∃ i : ℕ, [(0:ℤ), 3, 6, 9, 12, 15, 18, 21].get? i = some l ∧
        [(0:ℤ), 3, 6, 9, 12, 15, 18, 21].get? (i + 1) = some r) ∧
      l ≤ 7 ∧ 7 < r ∧
      (∀ x ∈ [(0:ℤ), 3, 6, 9, 12, 15, 18, 21], 7 < x → r ≤ x) ∧
      (∀ (j : ℕ) (l2 r2 : ℤ), [(0:ℤ), 3, 6, 9, 12, 15, 18, 21].get? j = some l2 →
        [(0:ℤ), 3, 6, 9, 12, 15, 18, 21].get? (j + 1) = some r2 →
        l2 ≤ 7 → 7 < r2 → l2 = l ∧ r2 = r) :=
  either_side_bracket_correct [0, 3, 6, 9, 12, 15, 18, 21] 7 (by decide) (by decide)
    (by decide) (by decide)

/-- C3 counterexample: at H = [0,3,6,9] and t = 6 (which satisfies
`min H ≤ t < max H`), `_either_side` returns the pair (6, 9), and the claimed
strict invariant `l < t < r` fails because l = t = 6. -/
theorem either_side_strict_cex :
    List.Sorted (· < ·) [(0:ℤ), 3, 6, 9] ∧ (0:ℤ) ≤ 6 ∧ (6:ℤ) < 9 ∧
    either_side 6 [0, 3, 6, 9] = some (6, 9) ∧ ¬((6:ℤ) < 6 ∧ (6:ℤ) < 9) := by
  decide

/-- C3 (amended): every bracket produced by `_either_side` for a target `t`
with `min H ≤ t < max H` satisfies the non-strict invariant `l ≤ t < r`, with
both endpoints drawn from the available hours `H`; `l = t` occurs exactly
when the target hour is itself an available hour. -/
theorem either_side_bracket_endpoints (H : List ℤ) (t l r : ℤ)
    (hs : List.Sorted (· < ·) H) (hne : H ≠ [])
    (hmin : H.head hne ≤ t) (hmax : t < H.getLast hne)
    (hres : either_side t H = some (l, r)) :
    l ∈ H ∧ r ∈ H ∧ l ≤ t ∧ t < r := by
  obtain ⟨i, l0, r0, hfi, hi1, hl, hr, heq⟩ := either_side_spec H t hne hmin hmax
  rw [heq] at hres
  have hpair : (l0, r0) = (l, r) := Option.some.inj hres
  have hl0 : l = l0 := (congrArg Prod.fst hpair).symm
  have hr0 : r = r0 := (congrArg Prod.snd hpair).symm
  subst hl0
  subst hr0
  refine ⟨List.get?_mem hl, List.get?_mem hr, ?_, ?_⟩
  · exact firstGtIdx_before t H i hfi (i - 1) (by omega) l hl
  · obtain ⟨x, hx, hcx⟩ := firstGtIdx_get t H i hfi
    rw [hr] at hx
    obtain rfl : r = x := Option.some.inj hx
    exact hcx

/-- Witness for the amended C3 at H = [0,3,6,9], t = 6, bracket (6, 9). -/
theorem either_side_bracket_endpoints_witness :
    (6:ℤ) ∈ [(0:ℤ), 3, 6, 9] ∧ (9:ℤ) ∈ [(0:ℤ), 3, 6, 9] ∧ (6:ℤ) ≤ 6 ∧ (6:ℤ) < 9 :=
  either_side_bracket_endpoints [0, 3, 6, 9] 6 6 9 (by decide) (by decide) (by decide)
    (by decide) (by decide)

/-- C5: if the target hour is at or past the largest available hour, no
available hour is strictly greater than it, so the lookup
`np.where(steps > centre_point)[0][0]` fails (`IndexError`, modelled as
`none`) and `_either_side` produces no bracket. -/
theorem either_side_no_future_hour (H : List ℤ) (t : ℤ)
    (hs : List.Sorted (· < ·) H) (hne : H ≠ [])
    (hmax : H.getLast hne ≤ t) :
    either_side t H = none := by
  have hall : ∀ x ∈ H, x ≤ t := fun x hx =>
    le_trans (sorted_le_getLast H hs hne x hx) hmax
  have hfi : firstGtIdx t H = none := (firstGtIdx_eq_none_iff t H).mpr hall
  simp only [either_side, hfi]

/-- Witness for C5 at H = [0,3,6,9,12,15,18,21], t = 21 = max H. -/
theorem either_side_no_future_hour_witness :
    either_side 21 [0, 3, 6, 9, 12, 15, 18, 21] = none :=
  either_side_no_future_hour [0, 3, 6, 9, 12, 15, 18, 21] 21 (by decide) (by decide)
    (by decide)

/-- C8: for a target hour strictly below every available hour, the first
index with `H[i] > t` is 0, so `left_idx = -1` and numpy's negative-index
wrap-around makes `_either_side` silently return the non-bracket pair
`(H[len H - 1], H[0])` instead of failing. -/
theorem either_side_below_min (H : List ℤ) (t : ℤ)
    (hs : List.Sorted (· < ·) H) (hne : H ≠ [])
    (hlt : t < H.head hne) :
    either_side t H = some (H.getLast hne, H.head hne) := by
  have hfi : firstGtIdx t H = some 0 := by
    cases H with
    | nil => exact absurd rfl hne
    | cons hd tl =>
      rw [firstGtIdx_cons, if_pos]
      exact hlt
  have h0 : ((0:ℕ) : ℤ) - 1 = -1 := by norm_num
  have hh : H.get? 0 = some (H.head hne) := by
    rw [List.get?_zero, List.head?_eq_head]
  simp only [either_side, hfi, h0, npGet_neg_one H hne, npGet_coe, hh]

/-- Witness for C8 at H = [3,6,9], t = 1: the returned pair is (9, 3). -/
theorem either_side_below_min_witness :
    either_side 1 [3, 6, 9] = some (9, 3) :=
  either_side_below_min [3, 6, 9] 1 (by decide) (by decide) (by decide)

/-! ### Claim theorems about `_weighted_avg` -/

theorem weighted_avg_pair (it ot i0 i1 o0 o1 : ℚ) (ih oh : ℚ × ℚ) :
    weighted_avg it ot ih oh [i0, i1] [o0, o1] =
      some ((((it - ih.1) * i0) + ((ih.2 - it) * i1)) / (ih.2 - ih.1),
            (((ot - oh.1) * o0) + ((oh.2 - ot) * o1)) / (oh.2 - oh.1)) := rfl

theorem interp_left_endpoint (x y a b : ℚ) (hxy : x < y) :
    (((x - x) * a) + ((y - x) * b)) / (y - x) = b := by
  have hne2 : y - x ≠ 0 := sub_ne_zero.mpr hxy.ne'
  field_simp

theorem interp_right_endpoint (x y a b : ℚ) (hxy : x < y) :
    (((y - x) * a) + ((y - y) * b)) / (y - x) = a := by
  have hne2 : y - x ≠ 0 := sub_ne_zero.mpr hxy.ne'
  field_simp

/-- C2: `_weighted_avg` computes exactly the source formula
`in_avg = ((in_time - in_hours[0])*in_set[0] + (in_hours[1] - in_time)*in_set[1])
/ (in_hours[1] - in_hours[0])` (and symmetrically for the `out` window); in
particular for `in_hours = (6,9)`, `in_time = 7`, `in_set = [10, 16]` the
`in` result is exactly 14. -/
theorem weighted_avg_formula :
    (∀ (it ot i0 i1 o0 o1 : ℚ) (ih oh : ℚ × ℚ),
      weighted_avg it ot ih oh [i0, i1] [o0, o1] =
        some ((((it - ih.1) * i0) + ((ih.2 - it) * i1)) / (ih.2 - ih.1),
              (((ot - oh.1) * o0) + ((oh.2 - ot) * o1)) / (oh.2 - oh.1))) ∧
    (weighted_avg 7 17 (6, 9) (15, 18) [10, 16] [0, 0]).map Prod.fst = some 14 := by
  constructor
  · intro it ot i0 i1 o0 o1 ih oh
    exact weighted_avg_pair it ot i0 i1 o0 o1 ih oh
  · norm_num [weighted_avg]

/-- C4: boundary equality of the interpolation.  With `in_hours = (h0, h1)`,
`h0 < h1`: at `in_time = h0` the `in` result is exactly `in_set[1]`, and at
`in_time = h1` it is exactly `in_set[0]` (symmetrically for the `out`
window). -/
theorem weighted_avg_boundary (h0 h1 g0 g1 s0 s1 u0 u1 : ℚ)
    (hin : h0 < h1) (hout : g0 < g1) :
    weighted_avg h0 g0 (h0, h1) (g0, g1) [s0, s1] [u0, u1] = some (s1, u1) ∧
    weighted_avg h1 g1 (h0, h1) (g0, g1) [s0, s1] [u0, u1] = some (s0, u0) := by
  constructor
  · rw [weighted_avg_pair]
    rw [interp_left_endpoint h0 h1 s0 s1 hin, interp_left_endpoint g0 g1 u0 u1 hout]
  · rw [weighted_avg_pair]
    rw [interp_right_endpoint h0 h1 s0 s1 hin, interp_right_endpoint g0 g1 u0 u1 hout]

/-- Witness for C4 at in_hours = (6,9), out_hours = (15,18),
in_set = [10,16], out_set = [1,2]. -/
theorem weighted_avg_boundary_witness :
    weighted_avg 6 15 (6, 9) (15, 18) [10, 16] [1, 2] = some (16, 2) ∧
    weighted_avg 9 18 (6, 9) (15, 18) [10, 16] [1, 2] = some (10, 1) :=
  weighted_avg_boundary 6 9 15 18 10 16 1 2 (by norm_num) (by norm_num)

theorem interp_bounds (x p q a b : ℚ) (hpq : p < q) (hx0 : p ≤ x) (hx1 : x ≤ q) :
    min a b ≤ (((x - p) * a) + ((q - x) * b)) / (q - p) ∧
    (((x - p) * a) + ((q - x) * b)) / (q - p) ≤ max a b := by
  have hd : 0 < q - p := sub_pos.mpr hpq
  constructor
  · rw [le_div_iff hd]
    rcases le_total a b with hab | hab
    · rw [min_eq_left hab]
      nlinarith [mul_nonneg (sub_nonneg.mpr hx1) (sub_nonneg.mpr hab)]
    · rw [min_eq_right hab]
      nlinarith [mul_nonneg (sub_nonneg.mpr hx0) (sub_nonneg.mpr hab)]
  · rw [div_le_iff hd]
    rcases le_total a b with hab | hab
    · rw [max_eq_right hab]
      nlinarith [mul_nonneg (sub_nonneg.mpr hx0) (sub_nonneg.mpr hab)]
    · rw [max_eq_left hab]
      nlinarith [mul_nonneg (sub_nonneg.mpr hx1) (sub_nonneg.mpr hab)]

/-- C7: the interpolation result is a convex combination of the two
bracketing values: whenever `in_hours[0] ≤ in_time ≤ in_hours[1]` (with a
non-degenerate bracket), the `in` result lies between
`min in_set[0] in_set[1]` and `max in_set[0] in_set[1]` inclusive
(symmetrically for the `out` window). -/
theorem weighted_avg_convex (t u h0 h1 g0 g1 s0 s1 u0 u1 : ℚ)
    (hin : h0 < h1) (ht0 : h0 ≤ t) (ht1 : t ≤ h1)
    (hout : g0 < g1) (hu0 : g0 ≤ u) (hu1 : u ≤ g1) :
    ∃ vin vout : ℚ,
      weighted_avg t u (h0, h1) (g0, g1) [s0, s1] [u0, u1] = some (vin, vout) ∧
      min s0 s1 ≤ vin ∧ vin ≤ max s0 s1 ∧ min u0 u1 ≤ vout ∧ vout ≤ max u0 u1 := by
  obtain ⟨hbin1, hbin2⟩ := interp_bounds t h0 h1 s0 s1 hin ht0 ht1
  obtain ⟨hbout1, hbout2⟩ := interp_bounds u g0 g1 u0 u1 hout hu0 hu1
  exact ⟨_, _, weighted_avg_pair t u s0 s1 u0 u1 (h0, h1) (g0, g1),
    hbin1, hbin2, hbout1, hbout2⟩

/-- Witness for C7 at in_time = 7 in (6,9) with in_set = [10,16], out_time =
17 in (15,18) with out_set = [0,4]. -/
theorem weighted_avg_convex_witness :
    ∃ vin vout : ℚ,
      weighted_avg 7 17 (6, 9) (15, 18) [10, 16] [0, 4] = some (vin, vout) ∧
      min 10 16 ≤ vin ∧ vin ≤ max 10 16 ∧ min 0 4 ≤ vout ∧ vout ≤ max 0 4 :=
  weighted_avg_convex 7 17 6 9 15 18 10 16 0 4 (by norm_num) (by norm_num)
    (by norm_num) (by norm_num) (by norm_num) (by norm_num)

/-! ### Claim theorems about `_to_bearing` -/

/-- C6: `_to_bearing` maps 0 to "N", 90 to "E", 180 to "S", 270 to "W"; and
any angle whose absolute value falls in one of the boundary-gap dead zones
(between 22.5 and 22.6, or between 157.5 and 157.6) matches no branch and
yields no label. -/
theorem to_bearing_cardinal_and_dead_zones :
    to_bearing 0 = some "N" ∧ to_bearing 90 = some "E" ∧
    to_bearing 180 = some "S" ∧ to_bearing 270 = some "W" ∧
    (∀ a : ℚ, (22.5 < |a| ∧ |a| < 22.6) ∨ (157.5 < |a| ∧ |a| < 157.6) →
      to_bearing a = none) := by
  refine ⟨by norm_num [to_bearing], by norm_num [to_bearing, abs_of_nonneg],
    by norm_num [to_bearing, abs_of_nonneg], by norm_num [to_bearing, abs_of_nonneg], ?_⟩
  intro a h
  unfold to_bearing
  rcases h with ⟨h1, h2⟩ | ⟨h1, h2⟩
  · rw [if_neg (by linarith : ¬|a| < 22.5),
      if_neg (fun g => by linarith [g.1, g.2] : ¬(337.5 < |a| ∧ |a| < 360)),
      if_neg (fun g => by linarith [g.1, g.2] : ¬(22.6 < |a| ∧ |a| < 67.5)),
      if_neg (fun g => by linarith [g.1, g.2] : ¬(67.6 < |a| ∧ |a| < 112.5)),
      if_neg (fun g => by linarith [g.1, g.2] : ¬(112.6 < |a| ∧ |a| < 157.5)),
      if_neg (fun g => by linarith [g.1, g.2] : ¬(157.6 < |a| ∧ |a| < 202.5)),
      if_neg (fun g => by linarith [g.1, g.2] : ¬(202.6 < |a| ∧ |a| < 247.5)),
      if_neg (fun g => by linarith [g.1, g.2] : ¬(247.6 < |a| ∧ |a| < 292.5)),
      if_neg (fun g => by linarith [g.1, g.2] : ¬(292.6 < |a| ∧ |a| < 337.5))]
  · rw [if_neg (by linarith : ¬|a| < 22.5),
      if_neg (fun g => by linarith [g.1, g.2] : ¬(337.5 < |a| ∧ |a| < 360)),
      if_neg (fun g => by linarith [g.1, g.2] : ¬(22.6 < |a| ∧ |a| < 67.5)),
      if_neg (fun g => by linarith [g.1, g.2] : ¬(67.6 < |a| ∧ |a| < 112.5)),
      if_neg (fun g => by linarith [g.1, g.2] : ¬(112.6 < |a| ∧ |a| < 157.5)),
      if_neg (fun g => by linarith [g.1, g.2] : ¬(157.6 < |a| ∧ |a| < 202.5)),
      if_neg (fun g => by linarith [g.1, g.2] : ¬(202.6 < |a| ∧ |a| < 247.5)),
      if_neg (fun g => by linarith [g.1, g.2] : ¬(247.6 < |a| ∧ |a| < 292.5)),
      if_neg (fun g => by linarith [g.1, g.2] : ¬(292.6 < |a| ∧ |a| < 337.5))]

/-- Witness for C6's dead zone at angle 22.55. -/
theorem to_bearing_dead_zone_witness : to_bearing 22.55 = none :=
  to_bearing_cardinal_and_dead_zones.2.2.2.2 22.55
    (Or.inl ⟨by rw [abs_of_nonneg (by norm_num)]; norm_num,
      by rw [abs_of_nonneg (by norm_num)]; norm_num⟩)

/-- C9: `_to_bearing` depends only on the absolute value of its argument, so
every angle and its negation get the same label; in particular the westward
angle -90 is labelled "E". -/
theorem to_bearing_abs_symmetric :
    (∀ a : ℚ, to_bearing a = to_bearing (-a)) ∧ to_bearing (-90) = some "E" := by
  constructor
  · intro a
    simp only [to_bearing, abs_neg]
  · norm_num [to_bearing, abs_of_nonpos]

/-! ### Claim theorem about `build_results` -/

theorem weighted_avg_out_short (it ot : ℚ) (ih oh : ℚ × ℚ) (ins outs : List ℚ)
    (h : outs.get? 1 = none) : weighted_avg it ot ih oh ins outs = none := by
  unfold weighted_avg
  rw [h]
  cases ins.get? 0 <;> cases ins.get? 1 <;> cases outs.get? 0 <;> rfl

theorem outStep_eq_hour_right (a b c : ℤ) (hab : a < b) (hbc : b < c) :
    ∀ s : Timestep, outStep (a, b) (b, c) s = (s.hour == c) := by
  intro s
  unfold outStep inStep
  by_cases hc : s.hour = c
  · rw [hc]
    have hca : (c == a) = false := beq_eq_false_iff_ne.mpr (hab.trans hbc).ne'
    have hcb : (c == b) = false := beq_eq_false_iff_ne.mpr hbc.ne'
    simp [hca, hcb]
  · have hcf : (s.hour == c) = false := beq_eq_false_iff_ne.mpr hc
    rw [hcf]
    by_cases hb : s.hour = b
    · rw [hb]
      simp
    · have hbf : (s.hour == b) = false := beq_eq_false_iff_ne.mpr hb
      simp [hbf, hcf]

/-- C10: when the `out` bracket's left hour equals the `in` bracket's right
hour (brackets `(a,b)` and `(b,c)` with `a < b < c`) and the shared hour's
timestep is claimed by the `in` bucket via the `elif`, the `out` value lists
collect only the single timestep at hour `c` (when exactly one timestep has
hour `c`), so they have fewer than two elements and `_weighted_avg`'s read of
`out_set[1]` fails (`IndexError`), producing no `ResultSet`. -/
theorem build_results_shared_hour (a b c : ℤ) (in_time out_time : ℚ)
    (steps : List Timestep) (hab : a < b) (hbc : b < c)
    (hcount : steps.countP (fun s => s.hour == c) = 1) :
    ((steps.filter (outStep (a, b) (b, c))).map rain_prob).length < 2 ∧
    build_results in_time out_time (a, b) (b, c) steps = none := by
  have hcong : ∀ s ∈ steps, outStep (a, b) (b, c) s = (fun s => s.hour == c) s :=
    fun s _ => outStep_eq_hour_right a b c hab hbc s
  have hflen : (steps.filter (outStep (a, b) (b, c))).length = 1 := by
    rw [List.filter_congr hcong, ← List.countP_eq_length_filter]
    exact hcount
  have hget : ∀ f : Timestep → ℚ,
      ((steps.filter (outStep (a, b) (b, c))).map f).get? 1 = none := by
    intro f
    apply List.get?_eq_none.mpr
    rw [List.length_map, hflen]
  constructor
  · rw [List.length_map, hflen]
    norm_num
  · unfold build_results
    rw [weighted_avg_out_short _ _ _ _ _ _ (hget rain_prob),
      weighted_avg_out_short _ _ _ _ _ _ (hget temps),
      weighted_avg_out_short _ _ _ _ _ _ (hget wind_speed),
      weighted_avg_out_short _ _ _ _ _ _ (hget gust_speed)]

/-- Witness for C10: brackets (6,9) and (9,12), one timestep per hour. -/
theorem build_results_shared_hour_witness :
    ((([⟨6, 1, 2, 3, 4⟩, ⟨9, 5, 6, 7, 8⟩, ⟨12, 9, 10, 11, 12⟩] :
        List Timestep).filter (outStep (6, 9) (9, 12))).map rain_prob).length < 2 ∧
    build_results 7 10 (6, 9) (9, 12)
      [⟨6, 1, 2, 3, 4⟩, ⟨9, 5, 6, 7, 8⟩, ⟨12, 9, 10, 11, 12⟩] = none :=
  build_results_shared_hour 6 9 12 7 10
    [⟨6, 1, 2, 3, 4⟩, ⟨9, 5, 6, 7, 8⟩, ⟨12, 9, 10, 11, 12⟩]
    (by decide) (by decide) (by decide)

/-- Witness for C2: the general formula instantiated at in_time = 7,
in_hours = (6,9), in_set = [10,16]. -/
theorem weighted_avg_formula_witness :
    weighted_avg 7 17 (6, 9) (15, 18) [10, 16] [0, 0] =
      some ((((7 - (6:ℚ)) * 10) + ((9 - 7) * 16)) / (9 - 6),
            (((17 - (15:ℚ)) * 0) + ((18 - 17) * 0)) / (18 - 15)) :=
  weighted_avg_formula.1 7 17 10 16 0 0 (6, 9) (15, 18)

/-- Witness for C9: the symmetry instantiated at angle 45. -/
theorem to_bearing_abs_symmetric_witness :
    to_bearing 45 = to_bearing (-45) :=
  to_bearing_abs_symmetric.1 45
